import Mathlib

/-!
Shallow embedding of the ConfigCore plugin pipeline (src/ConfigCore.py):
version parsing and comparison, manifest resolution, the compatibility
gate, the installer, plugin path resolution, config-file save, and the
per-root reload decision of the host session.  Python dynamic values are
modelled by an inductive `PyVal`; Python exceptions by `Except PyExn`.
-/

namespace ConfigCore

/-- Model of a Python dynamic value as produced by json/yaml parsing and
passed around the manifest pipeline. -/
inductive PyVal where
  | none : PyVal
  | bool : Bool → PyVal
  | int : Int → PyVal
  | str : String → PyVal
  | list : List PyVal → PyVal
  | dict : List (String × PyVal) → PyVal

/-- Model of a raised Python exception, by class name and message. -/
structure PyExn where
  cls : String
  msg : String
  deriving Repr, DecidableEq

/-- Python truthiness: `bool(x)` for the value kinds in `PyVal`. -/
def pyTruthy : PyVal → Bool
  | .none => false
  | .bool b => b
  | .int n => n ≠ 0
  | .str s => s ≠ ""
  | .list xs => ¬ xs.isEmpty
  | .dict kvs => ¬ kvs.isEmpty

/-- Python `a or b`: returns `a` when truthy, else `b`. -/
def pyOr (a b : PyVal) : PyVal :=
  if pyTruthy a then a else b

/-- Python `d.get(k)` on a dict (returns `None` when the key is absent);
on a non-dict value the attribute access raises `AttributeError`. -/
def pyGet (v : PyVal) (k : String) : Except PyExn PyVal :=
  match v with
  | .dict kvs =>
      match kvs.lookup k with
      | some x => .ok x
      | Option.none => .ok .none
  | _ => .error ⟨"AttributeError", "object has no attribute get"⟩

/-- Dict access with default: the value `pyGet` yields on a dict,
`None` when the key is absent. -/
def dictGet (kvs : List (String × PyVal)) (k : String) : PyVal :=
  (kvs.lookup k).getD .none

/-- Python `str(x)`.  List and dict renderings are simplified placeholders
(the source only ever feeds the result to the digit-tolerant version
parser, where any non-numeric rendering parses to zeros). -/
def pyStr : PyVal → String
  | .none => "None"
  | .bool b => if b then "True" else "False"
  | .int n => toString n
  | .str s => s
  | .list _ => "[...]"
  | .dict _ => "{...}"

/-- Python iteration `for v in x`: strings yield their characters, lists
their elements, dicts their keys; other values raise `TypeError`. -/
def pyIter : PyVal → Except PyExn (List PyVal)
  | .str s => .ok (s.data.map fun c => .str (String.mk [c]))
  | .list xs => .ok xs
  | .dict kvs => .ok (kvs.map fun kv => .str kv.1)
  | _ => .error ⟨"TypeError", "object is not iterable"⟩

/-! ## Version Comparator (`_parse_version` and tuple comparison) -/

/-- Strip leading and trailing whitespace from a character list, as
Python `str.strip()` does with no arguments. -/
def pyStripChars (cs : List Char) : List Char :=
  ((cs.dropWhile Char.isWhitespace).reverse.dropWhile Char.isWhitespace).reverse

/-- Python `str.strip()`. -/
def pyStrip (s : String) : String :=
  String.mk (pyStripChars s.data)

/-- Split a character list on a separator character; like Python
`str.split(sep)`, the empty input yields one empty field. -/
def splitOnChar (sep : Char) : List Char → List Char → List (List Char)
  | [], acc => [acc.reverse]
  | c :: rest, acc =>
      if c = sep then acc.reverse :: splitOnChar sep rest []
      else splitOnChar sep rest (c :: acc)

/-- Python `int(s)` for the usual manifest inputs: optional surrounding
whitespace, an optional sign, then a nonempty run of decimal digits
(digit-group underscores are not modelled).  `Option.none` models a raised
`ValueError`. -/
def pyInt? (s : String) : Option Int :=
  let cs := pyStripChars s.data
  let core : List Char × Bool :=
    match cs with
    | '-' :: rest => (rest, true)
    | '+' :: rest => (rest, false)
    | rest => (rest, false)
  if core.1.isEmpty ∨ ¬ core.1.all Char.isDigit then Option.none
  else
    let mag : Nat := core.1.foldl (fun acc c => acc * 10 + c.toNat - '0'.toNat) 0
    some (if core.2 then -(mag : Int) else (mag : Int))

/-- Embedding of `_parse_version` (src/ConfigCore.py:206): strip the
string, split on dots, parse each segment as an int, coercing segments
that raise to 0. -/
def parse_version (v : String) : List Int :=
  (splitOnChar '.' (pyStrip v).data []).map fun p =>
    ((pyInt? (String.mk p)).getD 0)

/-- Python comparison of two ints, as an `Ordering`. -/
def intCmp (a b : Int) : Ordering :=
  if a < b then .lt else if a = b then .eq else .gt

/-- Python tuple comparison on int tuples: lexicographic, with a strict
prefix comparing less than its extension. -/
def tupCmp : List Int → List Int → Ordering
  | [], [] => .eq
  | [], _ :: _ => .lt
  | _ :: _, [] => .gt
  | a :: as_, b :: bs =>
      match intCmp a b with
      | .eq => tupCmp as_ bs
      | o => o

/-- Python `>=` on int tuples. -/
def tupGe (a b : List Int) : Bool :=
  match tupCmp a b with
  | .lt => false
  | _ => true

/-- Python `==` on int tuples. -/
def tupEq (a b : List Int) : Bool :=
  match tupCmp a b with
  | .eq => true
  | _ => false

/-- Python `>` on int tuples. -/
def tupGt (a b : List Int) : Bool :=
  match tupCmp a b with
  | .gt => true
  | _ => false

/-! ## Compatibility Gate (`is_plugin_compatible`, src/ConfigCore.py:216) -/

/-- The host core version string (`__version__`, src/ConfigCore.py:48). -/
def coreVersion : String := "0.2.0"

/-- The body of the `try:` block of `is_plugin_compatible`:
empty manifest is compatible; a truthy `min_core_version` requires
`core >= min`; else a truthy `compatible_core_versions` (or
`compatible_versions`) list requires exact membership of the parsed core
version; else compatible.  Dynamic-typing failures (attribute access on a
non-dict, iteration over a non-iterable) surface as `PyExn` errors. -/
def is_plugin_compatible_body (manifest : PyVal) (core_version : String) :
    Except PyExn Bool :=
  if ¬ pyTruthy manifest then .ok true
  else
    let core_v := parse_version core_version
    match pyGet manifest "min_core_version" with
    | .error e => .error e
    | .ok minv =>
        if pyTruthy minv then
          .ok (tupGe core_v (parse_version (pyStr minv)))
        else
          match pyGet manifest "compatible_core_versions" with
          | .error e => .error e
          | .ok cl1 =>
              match pyGet manifest "compatible_versions" with
              | .error e => .error e
              | .ok cl2 =>
                  let compat_list := pyOr cl1 cl2
                  if pyTruthy compat_list then
                    match pyIter compat_list with
                    | .error e => .error e
                    | .ok items =>
                        .ok (items.any fun v =>
                          tupEq core_v (parse_version (pyStr v)))
                  else .ok true

/-- Embedding of `is_plugin_compatible`: the body wrapped in the
`try/except` that maps any internal exception to `False`. -/
def is_plugin_compatible (manifest : PyVal) (core_version : String) : Bool :=
  match is_plugin_compatible_body manifest core_version with
  | .ok b => b
  | .error _ => false

/-! ## Manifest Resolver (`fetch_remote_manifest`, `read_local_manifest`) -/

/-- Outcome of one HTTP request in `github_api_get`
(src/ConfigCore.py:150): a response whose JSON body parsed (or not,
`Option.none` modelling a `json.loads` failure), an `HTTPError` whose
body parsed or not, or a transport-level `URLError`. -/
inductive ApiResult where
  | success (status : Int) (body : Option PyVal)
  | httpError (code : Int) (body : Option PyVal)
  | urlError (msg : String)

/-- Embedding of `github_api_get` applied to the outcome of its request:
a successful response returns its status and parsed body (an unparseable
body propagates the `json.loads` exception); an `HTTPError` returns its
code with the parsed body or `{}`; a `URLError` is re-raised as
`RuntimeError`. -/
def github_api_get : ApiResult → Except PyExn (Int × PyVal)
  | .success status (some data) => .ok (status, data)
  | .success _ Option.none =>
      .error ⟨"json.JSONDecodeError", "invalid response body"⟩
  | .httpError code (some data) => .ok (code, data)
  | .httpError code Option.none => .ok (code, .dict [])
  | .urlError msg => .error ⟨"RuntimeError", "Network error: " ++ msg⟩

/-- Whether an API outcome lets `github_api_get` return a pair rather
than raise. -/
def apiNonRaising : ApiResult → Bool
  | .urlError _ => false
  | .success _ Option.none => false
  | _ => true

/-- Environment of a remote manifest fetch: the network's answer per
request path, and the decoding oracles (base64+utf-8 of a `content`
value, `json.loads`, and the optional-yaml fallback whose error case
covers both a failed `import yaml` and a `safe_load` exception). -/
structure RemoteEnv where
  net : String → ApiResult
  b64utf8 : PyVal → Option String
  jsonLoads : String → Option PyVal
  yamlLoad : String → Except PyExn PyVal

/-- Decode step of `fetch_remote_manifest` for one found manifest file:
base64-decode the `content` and `json.loads` it; on any failure fall
back to `yaml.safe_load` of the decoded text; on any further failure
(including the decode itself having failed, which leaves the text
unbound and makes the fallback raise `NameError`) return `{}`.  Total:
every failure is caught. -/
def decodeRemoteContent (env : RemoteEnv) (contentVal : PyVal) : PyVal :=
  match env.b64utf8 contentVal with
  | Option.none => .dict []
  | some raw =>
      match env.jsonLoads raw with
      | some m => m
      | Option.none =>
          match env.yamlLoad raw with
          | .ok v => v
          | .error _ => .dict []

/-- Whether a parsed API body triggers the decode branch of
`fetch_remote_manifest`: status 200, body a dict containing `content`. -/
def manifestHit (status : Int) (data : PyVal) : Option PyVal :=
  if status = 200 then
    match data with
    | .dict kvs => kvs.lookup "content"
    | _ => Option.none
  else Option.none

/-- Embedding of `fetch_remote_manifest` (src/ConfigCore.py:183): try
`plugin.json` then `manifest.json` under the package folder; the first
response that is a 200 dict with `content` is decoded (fail-quiet) and
returned without trying the second file; otherwise `{}`.  Exceptions
raised by `github_api_get` propagate. -/
def fetch_remote_manifest (env : RemoteEnv) (package_name : String) :
    Except PyExn PyVal :=
  match github_api_get (env.net (package_name ++ "/plugin.json")) with
  | .error e => .error e
  | .ok res1 =>
      match manifestHit res1.1 res1.2 with
      | some contentVal => .ok (decodeRemoteContent env contentVal)
      | Option.none =>
          match github_api_get (env.net (package_name ++ "/manifest.json")) with
          | .error e => .error e
          | .ok res2 =>
              match manifestHit res2.1 res2.2 with
              | some contentVal => .ok (decodeRemoteContent env contentVal)
              | Option.none => .ok (.dict [])

/-- Environment of a local manifest read: which files exist under the
package directory, the result of reading each (reads can raise), and the
decoding oracles. -/
structure LocalEnv where
  fileExists : String → Bool
  readText : String → Except PyExn String
  jsonLoads : String → Option PyVal
  yamlLoad : String → Except PyExn PyVal

/-- Decode step of `read_local_manifest` for one existing file: read and
`json.loads`; on any failure (read or decode) re-read and
`yaml.safe_load`; on any further failure return `{}`.  Total. -/
def decodeLocalFile (env : LocalEnv) (p : String) : PyVal :=
  match env.readText p with
  | .error _ =>
      match env.readText p with
      | .error _ => .dict []
      | .ok raw2 =>
          match env.yamlLoad raw2 with
          | .ok v => v
          | .error _ => .dict []
  | .ok raw =>
      match env.jsonLoads raw with
      | some m => m
      | Option.none =>
          match env.readText p with
          | .error _ => .dict []
          | .ok raw2 =>
              match env.yamlLoad raw2 with
              | .ok v => v
              | .error _ => .dict []

/-- Embedding of `read_local_manifest` (src/ConfigCore.py:298): try
`plugin.json` then `manifest.json` inside the package directory; decode
the first existing one fail-quietly; `{}` when neither exists.  Stated
in `Except` to make the no-raise contract a theorem rather than a type
ascription. -/
def read_local_manifest (env : LocalEnv) (package_path : String) :
    Except PyExn PyVal :=
  if env.fileExists (package_path ++ "/plugin.json") then
    .ok (decodeLocalFile env (package_path ++ "/plugin.json"))
  else if env.fileExists (package_path ++ "/manifest.json") then
    .ok (decodeLocalFile env (package_path ++ "/manifest.json"))
  else
    .ok (.dict [])

/-- The value `read_local_manifest` computes; it always succeeds with
this value. -/
def readLocalVal (env : LocalEnv) (package_path : String) : PyVal :=
  if env.fileExists (package_path ++ "/plugin.json") then
    decodeLocalFile env (package_path ++ "/plugin.json")
  else if env.fileExists (package_path ++ "/manifest.json") then
    decodeLocalFile env (package_path ++ "/manifest.json")
  else
    .dict []

/-! ## Installer (`install_package_from_github`, src/ConfigCore.py:244) -/

/-- Python `s.startswith(pre)`. -/
def pyStartsWith (s pre : String) : Bool :=
  pre.data.isPrefixOf s.data

/-- Python `s.endswith(suf)`. -/
def pyEndsWith (s suf : String) : Bool :=
  suf.data.isSuffixOf s.data

/-- One member of the downloaded repository zip: its archive path and its
byte content (empty for directory members, whose names end in `/`). -/
structure ZipEntry where
  name : String
  data : String
  deriving Repr, DecidableEq

/-- The local package store root (`PACKAGES_DIR`, src/ConfigCore.py:56). -/
def PACKAGES_DIR : String := "~/.config_editor_packages"

/-- The archive root prefix detected from the first member, as
`members[0].split("/", 1)[0] + "/"` does. -/
def zipRoot (members : List ZipEntry) : String :=
  String.mk ((splitOnChar '/' ((members.headD ⟨"", ""⟩).name).data []).headD []) ++ "/"

/-- The `{root}{package_folder}/` prefix selecting the package subtree. -/
def installSelector (members : List ZipEntry) (package_folder : String) : String :=
  zipRoot members ++ package_folder ++ "/"

/-- The members selected for extraction: those whose path starts with the
target prefix. -/
def installMatched (members : List ZipEntry) (package_folder : String) : List ZipEntry :=
  members.filter fun m => pyStartsWith m.name (installSelector members package_folder)

/-- One filesystem effect of the extraction loop, with paths relative to
the destination directory. -/
inductive FsEvent where
  | mkdir (path : String)
  | write (path : String) (data : String)
  deriving Repr, DecidableEq

/-- The chain of directories `mkdir(parents=True)` creates for the path
whose slash-separated components are given: every proper prefix and the
path itself, shortest first. -/
def dirChainAux : List (List Char) → List Char → List String
  | [], _ => []
  | p :: rest, pre =>
      String.mk (pre ++ p) :: dirChainAux rest (pre ++ p ++ ['/'])

/-- Directory chain created for a directory member's relative path (which
ends in `/`; `dest / rel` normalizes the trailing slash away). -/
def dirMemberChain (rel : String) : List String :=
  dirChainAux (splitOnChar '/' (rel.data.dropLast) []) []

/-- Directory chain created for a file member's parent directory. -/
def fileParentChain (rel : String) : List String :=
  dirChainAux ((splitOnChar '/' rel.data []).dropLast) []

/-- The extraction loop over the matched members: strip the target
prefix, skip the entry for the package directory itself, create
directories for directory members, create parent directories and write
bytes for file members. -/
def extractEvents (matched : List ZipEntry) (selector : String) : List FsEvent :=
  matched.flatMap fun m =>
    let rel := String.mk (m.name.data.drop selector.data.length)
    if rel = "" then []
    else if pyEndsWith m.name "/" then
      (dirMemberChain rel).map .mkdir
    else
      (fileParentChain rel).map .mkdir ++ [.write rel m.data]

/-- The package store as a directory listing: package name paired with
the recorded extraction effects that produced its tree. -/
def Store := List (String × List FsEvent)

/-- Outcome of one installer run: the returned path or the raised
exception, the package store afterwards, and whether the temporary
snapshot file was removed. -/
structure InstallOut where
  res : Except PyExn String
  store : List (String × List FsEvent)
  tmpDeleted : Bool

/-- Embedding of `install_package_from_github`: `download` is the
combined outcome of the archive download and zip open (its members, or
the exception either step raised).  An empty archive and an unmatched
package name raise `FileNotFoundError` before the store is touched; on
the success path any existing copy of the package is removed and the
matched subtree extracted in its place.  The `finally` block's removal
of the temporary file is modelled as always succeeding. -/
def install_package_from_github (download : Except PyExn (List ZipEntry))
    (package_folder : String) (store : List (String × List FsEvent)) : InstallOut :=
  match download with
  | .error e => ⟨.error e, store, true⟩
  | .ok members =>
      if members.isEmpty then
        ⟨.error ⟨"FileNotFoundError", "Repo zip appears empty"⟩, store, true⟩
      else
        let selector := installSelector members package_folder
        let matched := installMatched members package_folder
        if matched.isEmpty then
          ⟨.error ⟨"FileNotFoundError",
            "Package folder '" ++ package_folder ++ "' not found in repo zip"⟩,
           store, true⟩
        else
          ⟨.ok (PACKAGES_DIR ++ "/" ++ package_folder),
           store.filter (fun kv => ¬ kv.1 = package_folder)
             ++ [(package_folder, extractEvents matched selector)],
           true⟩

/-! ## Plugin Path Resolver (`find_plugins_paths`, src/ConfigCore.py:315) -/

/-- One entry of a directory listing, with the `is_dir`/`is_file` facts
the resolver queries. -/
structure DirEntry where
  name : String
  isDir : Bool
  isFile : Bool
  deriving Repr, DecidableEq

/-- Filesystem view of one resolver run: the working directory and its
listing, whether `cwd/plugins` is a directory, the package store
listing, and path resolution to absolute form. -/
structure FsEnv where
  cwd : String
  pluginsIsDir : Bool
  pkgsEntries : List DirEntry
  cwdEntries : List DirEntry
  resolve : String → String

/-- The candidate roots before de-duplication, in the order the source
builds them: the conventional `plugins` directory when present, the
package store subdirectories, the `*_plugin.py` files of the working
directory. -/
def candidateRoots (env : FsEnv) : List String :=
  (if env.pluginsIsDir then [env.cwd ++ "/plugins"] else [])
    ++ ((env.pkgsEntries.filter fun e => e.isDir).map
          fun e => PACKAGES_DIR ++ "/" ++ e.name)
    ++ ((env.cwdEntries.filter fun e => e.isFile && pyEndsWith e.name "_plugin.py").map
          fun e => env.cwd ++ "/" ++ e.name)

/-- The de-duplication loop of `find_plugins_paths`: walk the roots with
a `seen` list of resolved keys, keeping a root only when its key is new. -/
def dedupeAux (resolve : String → String) : List String → List String → List String
  | [], _ => []
  | r :: rest, seen =>
      if seen.contains (resolve r) then dedupeAux resolve rest seen
      else r :: dedupeAux resolve rest (resolve r :: seen)

/-- Embedding of `find_plugins_paths`: the candidate roots de-duplicated
by resolved absolute path, first seen kept. -/
def find_plugins_paths (env : FsEnv) : List String :=
  dedupeAux env.resolve (candidateRoots env) []

/-- Specification-side first-occurrence filter: keep the head, drop every
later root with the same resolved path, recurse. -/
def specDedup (resolve : String → String) : List String → List String
  | [] => []
  | r :: rest => r :: specDedup resolve (rest.filter fun x => ¬ resolve x = resolve r)
termination_by l => l.length
decreasing_by
  simp only [List.length_cons]
  exact Nat.lt_succ_of_le (List.length_filter_le _ _)

/-! ## Config Document (`ConfigFile`, src/ConfigCore.py:102) -/

/-- Python `str.splitlines()` restricted to `\n` line terminators (the
files here are written with `\n` only): split on newlines, with a final
terminator producing no trailing empty line. -/
def pySplitlines (s : String) : List String :=
  if s.data.isEmpty then []
  else if s.data.getLast? = some '\n' then
    ((splitOnChar '\n' s.data []).map String.mk).dropLast
  else (splitOnChar '\n' s.data []).map String.mk

/-- Python `"\n".join(lines)` on the underlying characters. -/
def joinNl : List (List Char) → List Char
  | [] => []
  | [l] => l
  | l :: rest => l ++ '\n' :: joinNl rest

/-- Embedding of `write_file_lines` (src/ConfigCore.py:69): join the
lines with newlines, add a final newline when missing, and that text is
the new file content. -/
def write_file_lines (lines : List String) : String :=
  let text := joinNl (lines.map String.data)
  if text.getLast? = some '\n' then String.mk text else String.mk (text ++ ['\n'])

/-- On-disk state seen by one `ConfigFile`: the file's current content
and the backup copies made so far (backup path paired with content). -/
structure DiskState where
  content : String
  backups : List (String × String)

/-- The mutable fields of a `ConfigFile`: its path, the original-lines
snapshot, and the working lines. -/
structure ConfigFileSt where
  path : String
  orig_lines : List String
  lines : List String

/-- Embedding of `read_file_lines` (src/ConfigCore.py:65). -/
def read_file_lines (disk : DiskState) : List String :=
  pySplitlines disk.content

/-- Embedding of `ConfigFile.load`: both line buffers become the on-disk
lines. -/
def ConfigFile_load (path : String) (disk : DiskState) : ConfigFileSt :=
  ⟨path, read_file_lines disk, read_file_lines disk⟩

/-- Embedding of `make_backup` (src/ConfigCore.py:76): copy the current
file content to `{path}.bak.{ts}`, with `ts` the formatted current time,
and return the backup path. -/
def make_backup (path ts : String) (disk : DiskState) : DiskState × String :=
  let bak := path ++ ".bak." ++ ts
  (⟨disk.content, disk.backups ++ [(bak, disk.content)]⟩, bak)

/-- Embedding of `ConfigFile.append_line`. -/
def ConfigFile_append_line (cf : ConfigFileSt) (new_line : String) : ConfigFileSt :=
  { cf with lines := cf.lines ++ [new_line] }

/-- Embedding of `ConfigFile.save` (src/ConfigCore.py:136): when
`backup` is set (its default), back the file up first; then overwrite
with the working lines; then reload, re-synchronizing both buffers to
the new on-disk state.  Returns the new `ConfigFile` state, the new disk
state, and the backup path (empty when no backup was made). -/
def ConfigFile_save (cf : ConfigFileSt) (disk : DiskState) (ts : String)
    (backup : Bool) : ConfigFileSt × DiskState × String :=
  let step1 := if backup then make_backup cf.path ts disk else (disk, "")
  let disk2 : DiskState := ⟨write_file_lines cf.lines, step1.1.backups⟩
  (ConfigFile_load cf.path disk2, disk2, step1.2)

/-! ## Plugin Host Session, per-root reload step
(`CoreGUI.reload_plugins`, src/ConfigCore.py:607) -/

/-- Where a discovered root came from.  The reload loop cannot observe
this; it is carried only to tie roots back to the resolver's cases. -/
inductive RootProvenance where
  | pluginsDir
  | packageStore
  | cwdFile
  deriving Repr, DecidableEq

/-- One root as the reload loop sees it: its provenance, the `exists`
and `is_dir` facts queried on it, its path, and the filesystem view its
manifest is read through. -/
structure ReloadRoot where
  provenance : RootProvenance
  pathExists : Bool
  isDir : Bool
  path : String
  manifestEnv : LocalEnv

/-- Decision the reload loop takes for one root before any import is
attempted: a disabled placeholder tab carrying the manifest, or handing
the root to the dynamic loader. -/
inductive RootDecision where
  | disabled (manifest : PyVal)
  | load

/-- Whether a decision hands the root to the dynamic loader. -/
def RootDecision.isLoad : RootDecision → Bool
  | .disabled _ => false
  | .load => true

/-- Embedding of the gate section of the reload loop (src/ConfigCore.py:
616-629): for an existing directory root, read its local manifest and
run the compatibility gate, producing a disabled placeholder on failure;
all other roots go straight to the loader.  The returned flag records
whether a manifest was read and the gate run.  Exceptions of
`read_local_manifest` would propagate (there are none). -/
def reload_root_step (r : ReloadRoot) (core : String) :
    Except PyExn (RootDecision × Bool) :=
  if r.pathExists && r.isDir then
    match read_local_manifest r.manifestEnv r.path with
    | .error e => .error e
    | .ok m =>
        if is_plugin_compatible m core then .ok (.load, true)
        else .ok (.disabled m, true)
  else
    .ok (.load, false)

/-! ## Order lemmas for the version comparator -/

theorem intCmp_self (a : Int) : intCmp a a = .eq := by
  simp [intCmp]

theorem intCmp_eq_iff {a b : Int} : intCmp a b = .eq ↔ a = b := by
  unfold intCmp
  split_ifs with h1 h2 <;> simp_all
  omega

theorem intCmp_lt_iff {a b : Int} : intCmp a b = .lt ↔ a < b := by
  unfold intCmp
  split_ifs with h1 h2 <;> simp_all

theorem intCmp_gt_iff {a b : Int} : intCmp a b = .gt ↔ b < a := by
  unfold intCmp
  split_ifs with h1 h2 <;> simp_all
  all_goals omega

theorem intCmp_swap (a b : Int) : intCmp b a = (intCmp a b).swap := by
  rcases lt_trichotomy a b with h | h | h
  · rw [intCmp_lt_iff.mpr h, intCmp_gt_iff.mpr h]; rfl
  · rw [intCmp_eq_iff.mpr h, intCmp_eq_iff.mpr h.symm]; rfl
  · rw [intCmp_gt_iff.mpr h, intCmp_lt_iff.mpr h]; rfl

theorem tupCmp_eq_iff : ∀ a b : List Int, tupCmp a b = .eq ↔ a = b := by
  intro a
  induction a with
  | nil => intro b; cases b <;> simp [tupCmp]
  | cons x xs ih =>
      intro b
      cases b with
      | nil => simp [tupCmp]
      | cons y ys =>
          cases h : intCmp x y with
          | eq =>
              have hxy := intCmp_eq_iff.mp h
              subst hxy
              simp [tupCmp, intCmp_self, ih]
          | lt =>
              have hxy : x ≠ y := ne_of_lt (intCmp_lt_iff.mp h)
              simp [tupCmp, h, hxy]
          | gt =>
              have hxy : x ≠ y := (ne_of_lt (intCmp_gt_iff.mp h)).symm
              simp [tupCmp, h, hxy]

theorem tupCmp_swap : ∀ a b : List Int, tupCmp b a = (tupCmp a b).swap := by
  intro a
  induction a with
  | nil => intro b; cases b <;> rfl
  | cons x xs ih =>
      intro b
      cases b with
      | nil => rfl
      | cons y ys =>
          have hs := intCmp_swap x y
          cases h : intCmp x y <;>
            simp_all [tupCmp, Ordering.swap]

theorem tupCmp_lt_trans :
    ∀ a b c : List Int, tupCmp a b = .lt → tupCmp b c = .lt → tupCmp a c = .lt := by
  intro a
  induction a with
  | nil =>
      intro b c hab hbc
      cases b with
      | nil => simp [tupCmp] at hab
      | cons y ys =>
          cases c with
          | nil => simp [tupCmp] at hbc
          | cons z zs => simp [tupCmp]
  | cons x xs ih =>
      intro b c hab hbc
      cases b with
      | nil => simp [tupCmp] at hab
      | cons y ys =>
          cases c with
          | nil => simp [tupCmp] at hbc
          | cons z zs =>
              cases hxy : intCmp x y with
              | gt => simp [tupCmp, hxy] at hab
              | lt =>
                  cases hyz : intCmp y z with
                  | gt => simp [tupCmp, hyz] at hbc
                  | lt =>
                      have hz : x < z :=
                        lt_trans (intCmp_lt_iff.mp hxy) (intCmp_lt_iff.mp hyz)
                      simp [tupCmp, intCmp_lt_iff.mpr hz]
                  | eq =>
                      have hz : x < z :=
                        (intCmp_eq_iff.mp hyz) ▸ (intCmp_lt_iff.mp hxy)
                      simp [tupCmp, intCmp_lt_iff.mpr hz]
              | eq =>
                  cases hyz : intCmp y z with
                  | gt => simp [tupCmp, hyz] at hbc
                  | lt =>
                      have hz : x < z :=
                        (intCmp_eq_iff.mp hxy) ▸ (intCmp_lt_iff.mp hyz)
                      simp [tupCmp, intCmp_lt_iff.mpr hz]
                  | eq =>
                      have hxz : x = z :=
                        (intCmp_eq_iff.mp hxy).trans (intCmp_eq_iff.mp hyz)
                      simp only [tupCmp, hxy] at hab
                      simp only [tupCmp, hyz] at hbc
                      simp [tupCmp, intCmp_eq_iff.mpr hxz, ih ys zs hab hbc]

theorem tupCmp_append_zeros (t : List Int) (k : Nat) :
    tupCmp t (t ++ List.replicate (k + 1) 0) = .lt := by
  induction t with
  | nil => simp [List.replicate_succ, tupCmp]
  | cons x xs ih => simp [tupCmp, intCmp_self, ih]

/-! ## Claims about the Version Comparator -/

/-- Claim C2, counterexample: the parsed versions of `1.2` and `1.2.0`
do not compare equal — the shorter tuple compares strictly less — so the
claimed equality of versions differing by trailing `.0` segments fails at
this input. -/
theorem C2_counterexample :
    tupEq (parse_version "1.2") (parse_version "1.2.0") = false ∧
    parse_version "1.2" = [1, 2] ∧ parse_version "1.2.0" = [1, 2, 0] ∧
    tupCmp (parse_version "1.2") (parse_version "1.2.0") = Ordering.lt :=
  ⟨by decide, by decide, by decide, by decide⟩

/-- Claim C2 (amended): missing trailing segments are not implicitly 0 —
appending trailing `.0` segments yields a strictly greater tuple, never
an equal one (`parse("1.2") < parse("1.2.0")`); the comparison is
nonetheless total and consistent for all segment counts (equality holds
exactly for identical tuples, comparison is anti-symmetric under
argument swap, and the strict order is transitive);
`parse("2.0") > parse("1.9.9")`; and a non-numeric segment parses as 0
without raising. -/
theorem C2_version_order :
    (∀ (t : List Int) (k : Nat),
        tupCmp t (t ++ List.replicate (k + 1) 0) = Ordering.lt) ∧
    (∀ a b : List Int, tupCmp a b = Ordering.eq ↔ a = b) ∧
    (∀ a b : List Int, tupCmp b a = (tupCmp a b).swap) ∧
    (∀ a b c : List Int,
        tupCmp a b = Ordering.lt → tupCmp b c = Ordering.lt →
          tupCmp a c = Ordering.lt) ∧
    tupEq (parse_version "1.2") (parse_version "1.2.0") = false ∧
    tupCmp (parse_version "1.2") (parse_version "1.2.0") = Ordering.lt ∧
    tupGt (parse_version "2.0") (parse_version "1.9.9") = true ∧
    parse_version "abc" = [0] :=
  ⟨tupCmp_append_zeros, tupCmp_eq_iff, tupCmp_swap, tupCmp_lt_trans,
    by decide, by decide, by decide, by decide⟩

/-- Closed instance of the transitivity conjunct of `C2_version_order`,
discharging its hypotheses at concrete tuples. -/
theorem C2_version_order_witness : tupCmp [0] [2] = Ordering.lt :=
  C2_version_order.2.2.2.1 [0] [1] [2] (by decide) (by decide)

/-! ## Claims about the Compatibility Gate -/

/-- `pyGet` on a dict never raises and yields the looked-up value. -/
theorem pyGet_dict (kvs : List (String × PyVal)) (k : String) :
    pyGet (.dict kvs) k = .ok (dictGet kvs k) := by
  cases h : kvs.lookup k <;> simp [pyGet, dictGet, h]

/-- Claim C5: the gate is total and fail-closed — for every manifest
value (of any type) and every core version string, evaluation of the
gate body either completes with a boolean that the gate returns, or
raises internally, in which case the gate returns `false`; the gate
itself never raises (it is `Bool`-valued by the catch-all handler). -/
theorem C5_gate_total_fail_closed (manifest : PyVal) (core_version : String) :
    (∃ b, is_plugin_compatible_body manifest core_version = .ok b ∧
        is_plugin_compatible manifest core_version = b) ∨
    (∃ e, is_plugin_compatible_body manifest core_version = .error e ∧
        is_plugin_compatible manifest core_version = false) := by
  cases h : is_plugin_compatible_body manifest core_version with
  | ok b => exact .inl ⟨b, rfl, by simp [is_plugin_compatible, h]⟩
  | error e => exact .inr ⟨e, rfl, by simp [is_plugin_compatible, h]⟩

/-- Claim C4, counterexample: on the manifest
`{"compatible_core_versions": []}` the explicit list is present, the
host version equals none of its (zero) entries, yet the gate returns
`true` — an empty list is falsy, so the list rule is skipped entirely. -/
theorem C4_counterexample :
    is_plugin_compatible (.dict [("compatible_core_versions", .list [])])
      coreVersion = true ∧
    (List.any ([] : List PyVal) fun v =>
        tupEq (parse_version coreVersion) (parse_version (pyStr v))) = false :=
  ⟨rfl, rfl⟩

/-- Claim C4 (amended): an empty manifest dict is compatible; a truthy
`min_core_version` value decides compatibility as
`host >= min_core_version` and takes precedence over any list; when the
minimum is absent or falsy and the first truthy of
`compatible_core_versions` / `compatible_versions` is a non-empty list,
compatibility is exact parsed equality with one listed entry; with no
truthy constraint the gate passes.  Presence alone does not trigger a
rule: falsy values (empty string, empty list) are treated as absent. -/
theorem C4_gate_rules (kvs : List (String × PyVal)) (core : String) :
    (kvs = [] → is_plugin_compatible (.dict kvs) core = true) ∧
    (pyTruthy (dictGet kvs "min_core_version") = true →
      is_plugin_compatible (.dict kvs) core =
        tupGe (parse_version core)
          (parse_version (pyStr (dictGet kvs "min_core_version")))) ∧
    (∀ vs : List PyVal,
      pyTruthy (dictGet kvs "min_core_version") = false →
      pyOr (dictGet kvs "compatible_core_versions")
          (dictGet kvs "compatible_versions") = .list vs →
      vs ≠ [] →
      is_plugin_compatible (.dict kvs) core =
        vs.any fun v => tupEq (parse_version core) (parse_version (pyStr v))) ∧
    (pyTruthy (dictGet kvs "min_core_version") = false →
      pyTruthy (pyOr (dictGet kvs "compatible_core_versions")
          (dictGet kvs "compatible_versions")) = false →
      is_plugin_compatible (.dict kvs) core = true) := by
  have hcons : ∀ (kv : String × PyVal) (rest : List (String × PyVal)),
      pyTruthy (.dict (kv :: rest)) = true := by
    intro kv rest
    simp [pyTruthy]
  refine ⟨?_, ?_, ?_, ?_⟩
  · intro h
    subst h
    rfl
  · intro hmin
    cases kvs with
    | nil => simp [dictGet, pyTruthy] at hmin
    | cons kv rest =>
        simp [is_plugin_compatible, is_plugin_compatible_body,
          pyGet_dict, hcons, hmin]
  · intro vs hmin hlist hne
    cases kvs with
    | nil => simp [dictGet, pyOr, pyTruthy] at hlist
    | cons kv rest =>
        have htr : pyTruthy (.list vs) = true := by
          simp [pyTruthy, hne]
        simp [is_plugin_compatible, is_plugin_compatible_body,
          pyGet_dict, hcons, hmin, hlist, htr, pyIter]
  · intro hmin hlist
    cases kvs with
    | nil => rfl
    | cons kv rest =>
        simp [is_plugin_compatible, is_plugin_compatible_body,
          pyGet_dict, hcons, hmin, hlist]

/-- Closed instance of `C4_gate_rules`: its minimum-version rule applied
to the manifest `{"min_core_version": "9.9.9"}` at the host version,
where the gate computes `false`. -/
theorem C4_gate_rules_witness :
    is_plugin_compatible (.dict [("min_core_version", .str "9.9.9")])
      coreVersion =
      tupGe (parse_version coreVersion)
        (parse_version (pyStr (dictGet [("min_core_version", .str "9.9.9")]
          "min_core_version"))) :=
  (C4_gate_rules [("min_core_version", .str "9.9.9")] coreVersion).2.1
    (by decide)

/-! ## Claims about the Manifest Resolver -/

/-- `read_local_manifest` always succeeds, with the value `readLocalVal`
describes. -/
theorem read_local_manifest_ok (env : LocalEnv) (package_path : String) :
    read_local_manifest env package_path = .ok (readLocalVal env package_path) := by
  unfold read_local_manifest readLocalVal
  split_ifs <;> rfl

/-- A non-raising API outcome makes `github_api_get` return a pair. -/
theorem github_api_get_ok_of_nonRaising {r : ApiResult}
    (h : apiNonRaising r = true) : ∃ p, github_api_get r = .ok p := by
  cases r with
  | success status body =>
      cases body with
      | none => simp [apiNonRaising] at h
      | some data => exact ⟨(status, data), rfl⟩
  | httpError code body =>
      cases body with
      | none => exact ⟨(code, .dict []), rfl⟩
      | some data => exact ⟨(code, data), rfl⟩
  | urlError m => simp [apiNonRaising] at h

/-- Claim C3, counterexample: a transport-level network failure on the
first manifest request propagates out of `fetch_remote_manifest` as a
`RuntimeError`, instead of degrading to the empty mapping as the claim
states for every IO failure. -/
theorem C3_counterexample :
    fetch_remote_manifest
      ⟨fun _ => .urlError "connection refused",
        fun _ => Option.none, fun _ => Option.none,
        fun _ => .error ⟨"ImportError", "no module named yaml"⟩⟩
      "pkg" = .error ⟨"RuntimeError", "Network error: connection refused"⟩ :=
  rfl

/-- Claim C3 (amended): `read_local_manifest` never raises for any
package directory; `fetch_remote_manifest` never raises as long as both
manifest requests are answered without a raising outcome (any HTTP
status, any undecodable manifest content degrade to a returned mapping)
— but a transport-level `URLError`, re-raised as `RuntimeError`, or a
`json.loads` failure on a successful API response body propagates past
its boundary. -/
theorem C3_resolver_no_raise :
    (∀ (env : LocalEnv) (package_path : String),
      ∃ m, read_local_manifest env package_path = .ok m) ∧
    (∀ (env : RemoteEnv) (package_name : String),
      (∀ path, apiNonRaising (env.net path) = true) →
      ∃ m, fetch_remote_manifest env package_name = .ok m) := by
  constructor
  · intro env p
    exact ⟨readLocalVal env p, read_local_manifest_ok env p⟩
  · intro env pkg hok
    obtain ⟨p1, hp1⟩ := github_api_get_ok_of_nonRaising (hok (pkg ++ "/plugin.json"))
    obtain ⟨p2, hp2⟩ := github_api_get_ok_of_nonRaising (hok (pkg ++ "/manifest.json"))
    unfold fetch_remote_manifest
    rw [hp1]
    cases hm : manifestHit p1.1 p1.2 with
    | some contentVal =>
        exact ⟨decodeRemoteContent env contentVal, by simp [hm]⟩
    | none =>
        cases hm2 : manifestHit p2.1 p2.2 with
        | some c2 =>
            exact ⟨decodeRemoteContent env c2, by simp [hm, hp2, hm2]⟩
        | none => exact ⟨.dict [], by simp [hm, hp2, hm2]⟩

/-- Closed instance of `C3_resolver_no_raise`: a remote fetch whose two
requests both come back 404 with unparseable bodies returns a mapping
rather than raising. -/
theorem C3_resolver_no_raise_witness :
    ∃ m, fetch_remote_manifest
        ⟨fun _ => .httpError 404 Option.none,
          fun _ => Option.none, fun _ => Option.none,
          fun _ => .error ⟨"ImportError", "no module named yaml"⟩⟩
        "pkg" = .ok m :=
  C3_resolver_no_raise.2
    ⟨fun _ => .httpError 404 Option.none,
      fun _ => Option.none, fun _ => Option.none,
      fun _ => .error ⟨"ImportError", "no module named yaml"⟩⟩
    "pkg" (fun _ => rfl)

/-! ## Claims about the reload gate -/

/-- Claim C1, counterexample: the conventional local `plugins` directory
root, carrying a manifest with `min_core_version` `9.9.9`, is gated —
the manifest is read, the Compatibility Gate runs (flag `true`), and the
Dynamic Loader is not invoked (`isLoad` is `false`), contradicting the
claim that such roots reach the loader with no manifest read and no
gate. -/
theorem C1_counterexample :
    (reload_root_step
        ⟨RootProvenance.pluginsDir, true, true, "/cwd/plugins",
          ⟨fun p => p == "/cwd/plugins/plugin.json",
            fun _ => Except.ok "raw",
            fun _ => some (.dict [("min_core_version", .str "9.9.9")]),
            fun _ => Except.error ⟨"ImportError", "no module named yaml"⟩⟩⟩
        coreVersion).map (fun x => (x.1.isLoad, x.2)) = .ok (false, true) :=
  rfl

/-- Claim C1 (amended): the reload loop applies the manifest read and
the Compatibility Gate to every root that exists and is a directory,
regardless of provenance — including the conventional local `plugins`
directory; only roots that are not existing directories (single-file
modules) reach the Dynamic Loader with no manifest read and no gate
run.  The boolean flag of `reload_root_step` records whether the gate
ran. -/
theorem C1_gate_per_root (r : ReloadRoot) (core : String) :
    ∃ m, read_local_manifest r.manifestEnv r.path = .ok m ∧
      reload_root_step r core = .ok
        (if r.pathExists && r.isDir then
          (if is_plugin_compatible m core then (.load, true)
            else (.disabled m, true))
         else (.load, false)) := by
  refine ⟨readLocalVal r.manifestEnv r.path, read_local_manifest_ok _ _, ?_⟩
  unfold reload_root_step
  cases hd : r.pathExists && r.isDir with
  | false => simp [hd]
  | true =>
      simp only [hd, if_true]
      rw [read_local_manifest_ok]
      cases hc : is_plugin_compatible (readLocalVal r.manifestEnv r.path) core <;>
        simp [hc]

/-! ## Claims about the Plugin Path Resolver -/

/-- The seen-list walk of the source equals the first-occurrence filter:
with `seen` keys already recorded, the walk returns the specification
dedup of the roots whose keys are not yet seen. -/
theorem dedupeAux_eq_specDedup (resolve : String → String) :
    ∀ (l seen : List String),
      dedupeAux resolve l seen =
        specDedup resolve (l.filter fun x => !(seen.contains (resolve x))) := by
  intro l
  induction l with
  | nil => intro seen; simp [dedupeAux, specDedup]
  | cons r rest ih =>
      intro seen
      by_cases h : resolve r ∈ seen
      · simp [dedupeAux, ih, h, List.filter_cons]
      · have hc : seen.contains (resolve r) = false := by simp [h]
        simp only [dedupeAux, ih, List.filter_cons, hc, Bool.not_false,
          Bool.false_eq_true, if_false, if_true, specDedup]
        congr 1
        rw [List.filter_filter]
        congr 1
        apply List.filter_congr
        intro x hx
        by_cases h1 : resolve x = resolve r <;>
          by_cases h2 : resolve x ∈ seen <;>
            simp [h1, h2]

/-- `specDedup` keeps a subsequence of its input. -/
theorem specDedup_sublist (resolve : String → String) (l : List String) :
    List.Sublist (specDedup resolve l) l := by
  induction l using specDedup.induct resolve with
  | case1 => simp [specDedup]
  | case2 r rest ih =>
      rw [specDedup]
      exact List.Sublist.cons₂ r (ih.trans (List.filter_sublist _))

/-- The resolved keys of `specDedup`'s output are pairwise distinct. -/
theorem specDedup_resolve_nodup (resolve : String → String) (l : List String) :
    ((specDedup resolve l).map resolve).Nodup := by
  induction l using specDedup.induct resolve with
  | case1 => simp [specDedup]
  | case2 r rest ih =>
      rw [specDedup]
      refine List.nodup_cons.mpr ⟨?_, ih⟩
      intro hmem
      obtain ⟨x, hx1, hx2⟩ := List.mem_map.mp hmem
      have hxf := (specDedup_sublist resolve _).subset hx1
      have := List.of_mem_filter hxf
      simp at this
      exact this hx2

/-- Claim C8: `find_plugins_paths` returns the candidate roots — the
conventional `plugins` directory of the working directory when present,
then every subdirectory of the package store, then every `*_plugin.py`
file of the working directory — de-duplicated by resolved absolute
path: of any two roots with the same resolved path only the first-seen
survives (the first-occurrence filter `specDedup`), the output is a
subsequence of the candidate list (order preserved), and its resolved
paths are pairwise distinct. -/
theorem C8_find_plugins_paths (env : FsEnv) :
    find_plugins_paths env = specDedup env.resolve (candidateRoots env) ∧
    List.Sublist (find_plugins_paths env) (candidateRoots env) ∧
    List.Nodup ((find_plugins_paths env).map env.resolve) := by
  have heq : find_plugins_paths env =
      specDedup env.resolve (candidateRoots env) := by
    unfold find_plugins_paths
    rw [dedupeAux_eq_specDedup]
    simp
  exact ⟨heq, heq ▸ specDedup_sublist _ _, heq ▸ specDedup_resolve_nodup _ _⟩

/-! ## Claims about the Installer -/

/-- Looking up a package right after clearing it and appending the fresh
entry finds exactly the fresh entry. -/
theorem lookup_filterOut_append (l : List (String × List FsEvent))
    (pkg : String) (T : List FsEvent) :
    ((l.filter fun kv => ¬ kv.1 = pkg) ++ [(pkg, T)]).lookup pkg = some T := by
  induction l with
  | nil => simp [List.lookup]
  | cons kv rest ih =>
      by_cases h : kv.1 = pkg
      · simpa [List.filter_cons, h] using ih
      · have hb : (pkg == kv.1) = false := by
          simp
          exact fun he => h he.symm
        simpa [List.filter_cons, h, List.lookup, hb] using ih

/-- After clearing and appending, exactly one store entry carries the
package name. -/
theorem countP_filterOut_append (l : List (String × List FsEvent))
    (pkg : String) (T : List FsEvent) :
    ((l.filter fun kv => ¬ kv.1 = pkg) ++ [(pkg, T)]).countP
        (fun kv => kv.1 == pkg) = 1 := by
  rw [List.countP_append]
  have h1 : (l.filter fun kv => ¬ kv.1 = pkg).countP
      (fun kv => kv.1 == pkg) = 0 := by
    rw [List.countP_eq_zero]
    intro a ha
    have := List.of_mem_filter ha
    simp at this ⊢
    exact this
  simp [h1, List.countP_cons]

/-- Clearing a package from a store that was just cleared and refreshed
for that package returns the original cleared store. -/
theorem filterOut_append_self (l : List (String × List FsEvent))
    (pkg : String) (T : List FsEvent) :
    (((l.filter fun kv => ¬ kv.1 = pkg) ++ [(pkg, T)]).filter
        fun kv => ¬ kv.1 = pkg) = l.filter fun kv => ¬ kv.1 = pkg := by
  rw [List.filter_append, List.filter_filter]
  simp

/-- Claim C6: a successful install replaces the package slot with
exactly the extraction of the matched archive subtree, regardless of any
prior copy; the store then holds exactly one entry for the package; and
a second install of the same archive is a no-op on the whole outcome
(idempotence, no merge artifacts from the prior install). -/
theorem C6_install_idempotent (members : List ZipEntry) (pkg : String)
    (store : List (String × List FsEvent))
    (h1 : members ≠ []) (h2 : installMatched members pkg ≠ []) :
    (install_package_from_github (.ok members) pkg store).res =
        .ok (PACKAGES_DIR ++ "/" ++ pkg) ∧
    (install_package_from_github (.ok members) pkg store).store.lookup pkg =
        some (extractEvents (installMatched members pkg)
          (installSelector members pkg)) ∧
    (install_package_from_github (.ok members) pkg store).store.countP
        (fun kv => kv.1 == pkg) = 1 ∧
    install_package_from_github (.ok members) pkg
        (install_package_from_github (.ok members) pkg store).store =
      install_package_from_github (.ok members) pkg store := by
  have e1 : members.isEmpty = false := by
    simp [List.isEmpty_iff, h1]
  have e2 : (installMatched members pkg).isEmpty = false := by
    simp [List.isEmpty_iff, h2]
  refine ⟨?_, ?_, ?_, ?_⟩
  · simp only [install_package_from_github, e1, e2, Bool.false_eq_true,
      if_false]
  · simp only [install_package_from_github, e1, e2, Bool.false_eq_true,
      if_false]
    exact lookup_filterOut_append store pkg _
  · simp only [install_package_from_github, e1, e2, Bool.false_eq_true,
      if_false]
    exact countP_filterOut_append store pkg _
  · simp only [install_package_from_github, e1, e2, Bool.false_eq_true,
      if_false]
    rw [filterOut_append_self]

/-- Closed instance of `C6_install_idempotent` at a one-file archive
installed over a store already holding a stale copy of the package. -/
theorem C6_install_idempotent_witness :
    (install_package_from_github
        (.ok [⟨"R-main/pkgA/f.py", "data"⟩]) "pkgA"
        [("pkgA", [.write "old.py" "old"])]).store.lookup "pkgA" =
      some (extractEvents (installMatched [⟨"R-main/pkgA/f.py", "data"⟩] "pkgA")
        (installSelector [⟨"R-main/pkgA/f.py", "data"⟩] "pkgA")) :=
  (C6_install_idempotent [⟨"R-main/pkgA/f.py", "data"⟩] "pkgA"
    [("pkgA", [.write "old.py" "old"])] (by decide) (by decide)).2.1

/-- Claim C7: the temporary snapshot file is removed on every exit path
of the installer, and a nonempty archive with no entry under the
package's selector prefix fails with the package-not-found
`FileNotFoundError`. -/
theorem C7_notfound_cleanup :
    (∀ (download : Except PyExn (List ZipEntry)) (pkg : String)
        (store : List (String × List FsEvent)),
      (install_package_from_github download pkg store).tmpDeleted = true) ∧
    (∀ (members : List ZipEntry) (pkg : String)
        (store : List (String × List FsEvent)),
      members ≠ [] → installMatched members pkg = [] →
      (install_package_from_github (.ok members) pkg store).res =
        .error ⟨"FileNotFoundError",
          "Package folder '" ++ pkg ++ "' not found in repo zip"⟩) := by
  constructor
  · intro download pkg store
    unfold install_package_from_github
    rcases download with e | members
    · rfl
    · by_cases h : members.isEmpty <;> by_cases h2 : (installMatched members pkg).isEmpty <;> simp [h, h2]
  · intro members pkg store h1 h2
    have e1 : members.isEmpty = false := by simp [List.isEmpty_iff, h1]
    have e2 : (installMatched members pkg).isEmpty = true := by
      simp [List.isEmpty_iff, h2]
    simp [install_package_from_github, e1, e2]

/-- Closed instance of `C7_notfound_cleanup`: requesting a package
absent from a one-file archive fails with package-not-found. -/
theorem C7_notfound_cleanup_witness :
    (install_package_from_github (.ok [⟨"R-main/other/f.py", "d"⟩])
        "pkgA" []).res =
      .error ⟨"FileNotFoundError",
        "Package folder 'pkgA' not found in repo zip"⟩ :=
  C7_notfound_cleanup.2 [⟨"R-main/other/f.py", "d"⟩] "pkgA" []
    (by decide) (by decide)

/-- Claim C10: when the archive is empty or no entry matches the
requested package, the installer leaves the package store exactly as it
was — any existing installed copy is removed only on the success path,
after a matching entry has been found. -/
theorem C10_fail_store_unchanged (members : List ZipEntry) (pkg : String)
    (store : List (String × List FsEvent))
    (h : members = [] ∨ installMatched members pkg = []) :
    (install_package_from_github (.ok members) pkg store).store = store := by
  rcases h with h | h
  · subst h
    rfl
  · by_cases h1 : members.isEmpty
    · simp [install_package_from_github, h1]
    · have e2 : (installMatched members pkg).isEmpty = true := by
        simp [List.isEmpty_iff, h]
      simp [install_package_from_github, h1, e2]

/-- Closed instance of `C10_fail_store_unchanged`: a failed install over
a store holding an older copy of the package leaves that copy in place. -/
theorem C10_fail_store_unchanged_witness :
    (install_package_from_github (.ok [⟨"R-main/other/f.py", "d"⟩]) "pkgA"
        [("pkgA", [.write "old.py" "old"])]).store =
      [("pkgA", [.write "old.py" "old"])] :=
  C10_fail_store_unchanged [⟨"R-main/other/f.py", "d"⟩] "pkgA"
    [("pkgA", [.write "old.py" "old"])] (.inr (by decide))

/-! ## Claims about the Config Document -/

/-- Splitting a separator-free chunk yields one field. -/
theorem splitOnChar_no_sep (sep : Char) :
    ∀ (xs acc : List Char), sep ∉ xs →
      splitOnChar sep xs acc = [acc.reverse ++ xs] := by
  intro xs
  induction xs with
  | nil => intro acc h; simp [splitOnChar]
  | cons c rest ih =>
      intro acc h
      have hc : ¬ c = sep := by
        intro he
        subst he
        exact h (List.mem_cons_self _ _)
      have h2 : sep ∉ rest := fun hm => h (List.mem_cons_of_mem _ hm)
      simp [splitOnChar, hc, ih _ h2]

/-- Splitting distributes over a separator occurrence. -/
theorem splitOnChar_append_sep (sep : Char) :
    ∀ (xs ys acc : List Char),
      splitOnChar sep (xs ++ sep :: ys) acc =
        splitOnChar sep xs acc ++ splitOnChar sep ys [] := by
  intro xs
  induction xs with
  | nil => intro ys acc; simp [splitOnChar]
  | cons c rest ih =>
      intro ys acc
      by_cases hc : c = sep
      · subst hc
        simp [splitOnChar, ih]
      · simp [splitOnChar, hc, ih]

/-- Joining with a final chunk appends it after a newline (or is the
chunk itself for an empty prefix). -/
theorem joinNl_concat :
    ∀ (M : List (List Char)) (ld : List Char),
      joinNl (M ++ [ld]) =
        if M.isEmpty then ld else joinNl M ++ '\n' :: ld := by
  intro M
  induction M with
  | nil => intro ld; simp [joinNl]
  | cons m M ih =>
      intro ld
      cases M with
      | nil => simp [joinNl]
      | cons m2 M2 =>
          show m ++ '\n' :: joinNl ((m2 :: M2) ++ [ld]) =
            joinNl (m :: m2 :: M2) ++ '\n' :: ld
          rw [ih ld]
          simp [joinNl]

/-- A chunk whose last character is known has that as last of the join. -/
theorem getLast?_cons_append (c : Char) (xs : List Char) (h : xs ≠ []) :
    (c :: xs).getLast? = xs.getLast? := by
  rw [show c :: xs = [c] ++ xs from rfl]
  exact List.getLast?_append_of_ne_nil _ h

/-- The last line of the file written for a line list ending in a
nonempty newline-free line is that line: the saved text is the join plus
a final newline, and splitting it back recovers the appended line as the
final field. -/
theorem splitlines_write_last (L : List String) (l : String)
    (h1 : l ≠ "") (h2 : '\n' ∉ l.data) :
    (pySplitlines (write_file_lines (L ++ [l]))).getLast? = some l := by
  have hld : l.data ≠ [] := by
    intro hd
    exact h1 (congrArg String.mk hd)
  have hlnl : l.data.getLast? ≠ some '\n' := by
    intro hg
    obtain ⟨hne, he⟩ := List.mem_getLast?_eq_getLast (l := l.data) (x := '\n')
      (by rw [hg]; rfl)
    exact h2 (he ▸ List.getLast_mem hne)
  have hmap : (L ++ [l]).map String.data = L.map String.data ++ [l.data] := by
    simp
  have hjoin := joinNl_concat (L.map String.data) l.data
  set T := joinNl ((L ++ [l]).map String.data) with hT
  have hlast : T.getLast? = l.data.getLast? := by
    rw [hT, hmap, hjoin]
    by_cases hM : (L.map String.data).isEmpty
    · simp [hM]
    · simp only [hM, Bool.false_eq_true, if_false]
      rw [List.getLast?_append_of_ne_nil _ (by simp)]
      exact getLast?_cons_append _ _ hld
  have hwrite : write_file_lines (L ++ [l]) = String.mk (T ++ ['\n']) := by
    show (if T.getLast? = some '\n' then String.mk T
      else String.mk (T ++ ['\n'])) = String.mk (T ++ ['\n'])
    exact if_neg fun hg => hlnl (hlast.symm.trans hg)
  have hsd : (String.mk (T ++ ['\n'])).data = T ++ ['\n'] := rfl
  rw [hwrite]
  unfold pySplitlines
  rw [hsd]
  rw [if_neg (by simp), if_pos (List.getLast?_concat _)]
  have hsplit : splitOnChar '\n' (T ++ ['\n']) [] =
      splitOnChar '\n' T [] ++ [[]] := by
    have he : T ++ ['\n'] = T ++ '\n' :: [] := rfl
    rw [he, splitOnChar_append_sep]
    rfl
  rw [hsplit, List.map_append, List.map_cons, List.map_nil,
    List.dropLast_concat]
  by_cases hM : (L.map String.data).isEmpty
  · have ht : T = l.data := by
      rw [hT, hmap, hjoin]
      simp [hM]
    rw [ht, splitOnChar_no_sep '\n' l.data [] h2]
    rfl
  · have ht : T = joinNl (L.map String.data) ++ '\n' :: l.data := by
      rw [hT, hmap, hjoin]
      simp [hM]
    rw [ht, splitOnChar_append_sep, List.map_append,
      splitOnChar_no_sep '\n' l.data [] h2]
    rw [List.getLast?_append_of_ne_nil _ (by simp)]
    rfl

/-- Claim C9: `save()` (with its default backup flag) first records a
backup `{path}.bak.{ts}` holding the pre-save on-disk content, then
overwrites the file with exactly the working lines, then re-synchronizes
both line buffers to the new on-disk state; and after appending a
nonempty newline-free line (in particular `"x"`) and saving, the on-disk
file's last line is that line. -/
theorem C9_save_contract (cf : ConfigFileSt) (disk : DiskState) (ts : String) :
    ((ConfigFile_save cf disk ts true).2.2 = cf.path ++ ".bak." ++ ts ∧
     (ConfigFile_save cf disk ts true).2.1.backups =
        disk.backups ++ [(cf.path ++ ".bak." ++ ts, disk.content)] ∧
     (ConfigFile_save cf disk ts true).2.1.content =
        write_file_lines cf.lines ∧
     (ConfigFile_save cf disk ts true).1.orig_lines =
        read_file_lines (ConfigFile_save cf disk ts true).2.1 ∧
     (ConfigFile_save cf disk ts true).1.lines =
        (ConfigFile_save cf disk ts true).1.orig_lines ∧
     (ConfigFile_save cf disk ts true).1.path = cf.path) ∧
    (∀ l : String, l ≠ "" → '\n' ∉ l.data →
      (pySplitlines
        (ConfigFile_save (ConfigFile_append_line cf l)
          disk ts true).2.1.content).getLast? = some l) := by
  constructor
  · exact ⟨rfl, rfl, rfl, rfl, rfl, rfl⟩
  · intro l hl1 hl2
    show (pySplitlines (write_file_lines (cf.lines ++ [l]))).getLast? = some l
    exact splitlines_write_last cf.lines l hl1 hl2

/-- Closed instance of `C9_save_contract`: appending `x` to a loaded
two-line file and saving leaves a file whose last line is `x`. -/
theorem C9_save_contract_witness :
    (pySplitlines (ConfigFile_save (ConfigFile_append_line
        (ConfigFile_load "/etc/conf" ⟨"a\nb\n", []⟩) "x")
        ⟨"a\nb\n", []⟩ "20240101_000000" true).2.1.content).getLast? =
      some "x" :=
  (C9_save_contract (ConfigFile_load "/etc/conf" ⟨"a\nb\n", []⟩)
    ⟨"a\nb\n", []⟩ "20240101_000000").2 "x" (by decide) (by decide)

end ConfigCore
